import Mathlib

/-!
Verification development for the group2-kgi-hackaton repository.

The repository is a React frontend plus a FastAPI backend for a
retrieval-augmented knowledge base over machine-inspection data.  The
frontend pages under `frontend/src/pages` are embedded here as pure
functions over explicit state; JavaScript engine primitives that the
code calls (`parseFloat`, `Date` parsing, `Math.random`) are passed in
as explicit oracle parameters, JS numbers are modelled as integers, and
JS strings as Lean strings.
-/

namespace KGI

/-- JS `String.prototype.toLowerCase`, modelled character-wise. -/
def jsToLower (s : String) : String :=
  String.mk (s.data.map Char.toLower)

/-- JS `String.prototype.trim`: strip whitespace from both ends. -/
def jsTrim (s : String) : String :=
  String.mk
    (((s.data.dropWhile Char.isWhitespace).reverse.dropWhile
      Char.isWhitespace).reverse)

/-- Substring test on character lists: JS `String.prototype.includes`. -/
def listIsInfixOf [DecidableEq α] : List α → List α → Bool
  | needle, [] => needle.isEmpty
  | needle, h :: t => needle.isPrefixOf (h :: t) || listIsInfixOf needle t

/-- JS `Array.prototype.slice(start, stop)` for `0 ≤ start ≤ stop`. -/
def jsSlice (start stop : Nat) (l : List α) : List α :=
  (l.take stop).drop start

/-! ### ManageSource.jsx : data model -/

/-- The `type` field of a column in `TABLE_CONFIGS` (ManageSource.jsx 20-81). -/
inductive ColType
  | number
  | string
  | date
  | datetime
deriving DecidableEq

/-- One entry of a `columns` array in `TABLE_CONFIGS`. -/
structure Column where
  key : String
  label : String
  type : ColType
deriving DecidableEq

/-- One table config: display `name` plus its `columns`. -/
structure TableConfig where
  name : String
  columns : List Column

/-- The keys of `TABLE_CONFIGS` (ManageSource.jsx 20-81): the only table
names the page can select (`handleTableChange` is invoked only from the
buttons generated by `Object.keys(TABLE_CONFIGS).map`, line 535). -/
inductive TableName
  | InspectionData
  | Machine_Tracking
  | UC_Life_Time
deriving DecidableEq

/-- The string key of a table, as it appears in `TABLE_CONFIGS`. -/
def tableKey : TableName → String
  | .InspectionData => "InspectionData"
  | .Machine_Tracking => "Machine_Tracking"
  | .UC_Life_Time => "UC_Life_Time"

/-- Keys of `TABLE_CONFIGS` (`Object.keys`) in insertion order. -/
def tableConfigKeys : List String :=
  ["InspectionData", "Machine_Tracking", "UC_Life_Time"]

/-- Table configs `TABLE_CONFIGS` (ManageSource.jsx lines 20-81). -/
def TABLE_CONFIGS : TableName → TableConfig
  | .InspectionData =>
    { name := "Inspection Data"
      columns :=
        [⟨"ID", "ID", .number⟩,
         ⟨"Inspection_ID", "Inspection ID", .number⟩,
         ⟨"Machine_Type", "Machine Type", .string⟩,
         ⟨"Model_Code", "Model Code", .string⟩,
         ⟨"Serial_No", "Serial Number", .string⟩,
         ⟨"Inspected_By", "Inspector", .string⟩,
         ⟨"Equipment_Number", "Equipment Number", .string⟩,
         ⟨"SMR", "SMR Hours", .number⟩,
         ⟨"Delivery_Date", "Delivery Date", .date⟩,
         ⟨"Inspection_Date", "Inspection Date", .date⟩,
         ⟨"Branch_Name", "Branch", .string⟩,
         ⟨"Customer_Name", "Customer", .string⟩,
         ⟨"Job_Site", "Job Site", .string⟩,
         ⟨"WorkingHourPerDay", "Working Hours/Day", .number⟩,
         ⟨"UnderfootConditions_Terrain", "Terrain", .string⟩,
         ⟨"UnderfootConditions_Abrasive", "Abrasive Level", .string⟩,
         ⟨"Link_Type", "Link Type", .string⟩,
         ⟨"Link_Spec", "Link Specification", .string⟩,
         ⟨"Bushing_Spec", "Bushing Spec", .string⟩,
         ⟨"Track_Roller_Spec", "Track Roller Spec", .string⟩,
         ⟨"ApplicationCode_Major", "Application Major", .string⟩,
         ⟨"ApplicationCode_Minor", "Application Minor", .string⟩,
         ⟨"Attachments", "Attachments", .string⟩,
         ⟨"Comments", "Comments", .string⟩] }
  | .Machine_Tracking =>
    { name := "Machine Tracking"
      columns :=
        [⟨"ID", "ID", .number⟩,
         ⟨"Model", "Model", .string⟩,
         ⟨"Type", "Type", .string⟩,
         ⟨"Serial", "Serial Number", .string⟩,
         ⟨"Delivery_Date_EQP_Care", "Delivery Date", .date⟩,
         ⟨"Machine_Location", "Machine Location", .string⟩,
         ⟨"Latitude", "Latitude", .number⟩,
         ⟨"Longitude", "Longitude", .number⟩,
         ⟨"GPS_Time", "GPS Time", .datetime⟩,
         ⟨"SMR_Hours", "SMR Hours", .number⟩,
         ⟨"Last_Communication_Date", "Last Communication", .datetime⟩] }
  | .UC_Life_Time =>
    { name := "UC Life Time"
      columns :=
        [⟨"ID", "ID", .number⟩,
         ⟨"Model", "Model", .string⟩,
         ⟨"General_Sand", "General Sand", .string⟩,
         ⟨"Soil", "Soil", .string⟩,
         ⟨"Marsh", "Marsh", .string⟩,
         ⟨"Coal", "Coal", .string⟩,
         ⟨"Hard_Rock", "Hard Rock", .string⟩,
         ⟨"Brittle_Rock", "Brittle Rock", .string⟩,
         ⟨"Pure_Sand_Middle_East", "Pure Sand Middle East", .string⟩,
         ⟨"Component", "Component", .string⟩] }

/-- A JS cell value: `null`/`undefined`, a number (modelled as `Int`),
or a string. -/
inductive Cell
  | null
  | num (n : Int)
  | str (s : String)
deriving DecidableEq

/-- A table row: an object, modelled as a key/value association list. -/
abbrev Row := List (String × Cell)

/-- Property read `row[key]`: a missing property reads as `undefined`
(`Cell.null`). -/
def getCell (row : Row) (k : String) : Cell :=
  match row.find? (fun p => p.1 == k) with
  | some p => p.2
  | none => .null

/-- The ManageSource component state relevant to query construction
and filtering (ManageSource.jsx lines 84-93). -/
structure MSState where
  selectedTable : TableName
  searchTerm : String
  sortKey : Option String
  sortAsc : Bool
  currentPage : Nat
  rowsPerPage : Nat

/-- The SQL string `loadTableData` sends to `/database/query`
(ManageSource.jsx line 114): built from `selectedTable` alone. -/
def loadTableQuery (st : MSState) : String :=
  "SELECT TOP 1000 * FROM " ++ tableKey st.selectedTable

/-- Handler `handleTableChange` (ManageSource.jsx lines 465-470). -/
def handleTableChange (st : MSState) (tableName : TableName) : MSState :=
  { st with
    selectedTable := tableName
    searchTerm := ""
    sortKey := none
    sortAsc := true
    currentPage := 1 }

/-- Constant `sampleSize = 1000` (ManageSource.jsx line 170). -/
def sampleSize : Nat := 1000

/-- Fallback generator `generateSampleData` (ManageSource.jsx lines
168-330): the loop
`for i = 1 to sampleSize` pushes one row per iteration; each row gets
exactly one value per configured column from the `switch` at lines
207-325.  Every branch of that switch yields a single cell value built
from `Math.random`/`Date.now`, abstracted here as the oracle `cellGen`
(table, column, loop index `i`). -/
def generateSampleData (cellGen : TableName → Column → Nat → Cell)
    (tableName : TableName) : List Row :=
  (List.range sampleSize).map
    (fun i => (TABLE_CONFIGS tableName).columns.map
      (fun c => (c.key, cellGen tableName c (i + 1))))

/-- Response of POST `/database/query` as consumed by `loadTableData`. -/
structure ApiResult where
  success : Bool
  data : List Row

/-- The toast issued by `loadTableData`: real data, sample-data
fallback, each with record count and table display name. -/
inductive LoadNotice
  | realData (count : Nat) (table : String)
  | sampleData (count : Nat) (table : String)
deriving DecidableEq

/-- Loader `loadTableData` (ManageSource.jsx lines 107-166).  `api` is the
outcome of the fetch: `none` models a network failure or a non-ok
response status; `some r` a parsed JSON body.  The real data is used
only when `result.success && result.data && result.data.length > 0`;
every other outcome falls back to `generateSampleData` and announces
the provenance with a SAMPLE DATA toast. -/
def loadTableData (cellGen : TableName → Column → Nat → Cell)
    (api : Option ApiResult) (tableName : TableName) :
    List Row × LoadNotice :=
  match api with
  | some r =>
    if r.success && 0 < r.data.length then
      (r.data, .realData r.data.length (TABLE_CONFIGS tableName).name)
    else
      let sample := generateSampleData cellGen tableName
      (sample, .sampleData sample.length (TABLE_CONFIGS tableName).name)
  | none =>
    let sample := generateSampleData cellGen tableName
    (sample, .sampleData sample.length (TABLE_CONFIGS tableName).name)

/-! ### ManageSource.jsx : filterAndSortData -/

/-- String form `value.toString()` of a defined cell value. -/
def cellToString : Cell → String
  | .null => ""
  | .num n => toString n
  | .str s => s

/-- The search predicate of `filterAndSortData` (ManageSource.jsx lines
336-345): a row passes when some configured column has a non-null value
whose string form contains the search term (JS `includes` is
case-sensitive; the code lowercases both sides first). -/
def rowMatchesSearch (cols : List Column) (term : String) (row : Row) : Bool :=
  cols.any (fun c =>
    match getCell row c.key with
    | .null => false
    | v => listIsInfixOf (jsToLower term).data (jsToLower (cellToString v)).data)

/-- JS engine primitives the sort comparator calls on string cells.
`parseFloatOr0 s` models `parseFloat(s) || 0`; `dateMillisOr0 s`
models `new Date(s).getTime() || 0`. -/
structure JSPrims where
  parseFloatOr0 : String → Int
  dateMillisOr0 : String → Int

/-- The value a cell is compared by inside the sort comparator. -/
inductive SortVal
  | num (n : Int)
  | str (s : String)
deriving DecidableEq

/-- The `<` of the comparator (ManageSource.jsx lines 370-375): both
sides always come from the same column conversion, so the cross-kind
cases are unreachable; they are ordered num-before-str so `svLT` is a
strict total order. -/
def svLT : SortVal → SortVal → Bool
  | .num a, .num b => a < b
  | .str a, .str b => a.data < b.data
  | .num _, .str _ => true
  | .str _, .num _ => false

/-- Conversion of one cell for comparison (ManageSource.jsx lines
350-368): null/undefined become `''`; a `number` column goes through
`parseFloat(v) || 0`; a `date`/`datetime` column through
`new Date(v).getTime() || 0` (a numeric value is its own timestamp);
anything else through `toString().toLowerCase()`. -/
def sortCell (P : JSPrims) (ty : Option ColType) (c : Cell) : SortVal :=
  let v := match c with
    | .null => Cell.str ""
    | other => other
  match ty with
  | some .number =>
    .num (match v with
      | .num n => n
      | .str s => P.parseFloatOr0 s
      | .null => 0)
  | some .date | some .datetime =>
    .num (match v with
      | .num n => n
      | .str s => P.dateMillisOr0 s
      | .null => 0)
  | _ => .str (jsToLower (cellToString v))

/-- Column lookup `columns.find(col => col.key === sortConfig.key)`
(ManageSource.jsx line 358), projected to its `type`. -/
def findColType (cols : List Column) (k : String) : Option ColType :=
  (cols.find? (fun c => c.key == k)).map (fun c => c.type)

/-- The comparison key of a row for sort key `k`. -/
def sortKeyVal (P : JSPrims) (cols : List Column) (k : String) (row : Row) :
    SortVal :=
  sortCell P (findColType cols k) (getCell row k)

/-- The comparator passed to `filtered.sort` (ManageSource.jsx lines
349-377): -1/1/0 depending on the converted values, with the signs
swapped for a descending sort. -/
def compareRows (P : JSPrims) (cols : List Column) (k : String) (asc : Bool)
    (a b : Row) : Int :=
  let av := sortKeyVal P cols k a
  let bv := sortKeyVal P cols k b
  if svLT av bv then (if asc then -1 else 1)
  else if svLT bv av then (if asc then 1 else -1)
  else 0

/-- Pipeline `filterAndSortData` (ManageSource.jsx lines 332-381): copy the
table data, filter by the search term when one is set, then sort with
the comparator when a sort key is set.  `Array.prototype.sort` with a
consistent comparator is a stable sort (ECMAScript 2019), modelled by
`List.insertionSort` over the comparator's reflexive closure. -/
def filterAndSortData (P : JSPrims) (tableName : TableName) (term : String)
    (sortKey : Option String) (asc : Bool) (tableData : List Row) : List Row :=
  let cols := (TABLE_CONFIGS tableName).columns
  let filtered := if term == "" then tableData
    else tableData.filter (rowMatchesSearch cols term)
  match sortKey with
  | none => filtered
  | some k =>
    filtered.insertionSort (fun a b => compareRows P cols k asc a b ≤ 0)

/-! ### ManageSource.jsx : selection and pagination -/

/-- Handler `handleSelectRow` (ManageSource.jsx lines 391-399): toggle one row
id in the `Set` of selected rows. -/
def handleSelectRow (selectedRows : Finset Cell) (id : Cell) : Finset Cell :=
  if id ∈ selectedRows then selectedRows.erase id else insert id selectedRows

/-- Page count `Math.ceil(filteredData.length / rowsPerPage)` (line 448). -/
def totalPages (len rowsPerPage : Nat) : Nat :=
  (len + rowsPerPage - 1) / rowsPerPage

/-- Pagination `getPaginatedData` (ManageSource.jsx lines 442-446). -/
def getPaginatedData (filteredData : List Row) (currentPage rowsPerPage : Nat) :
    List Row :=
  jsSlice ((currentPage - 1) * rowsPerPage)
    ((currentPage - 1) * rowsPerPage + rowsPerPage) filteredData

/-! ### UploadDocument.jsx : processFile -/

/-- Constant `allowedTypes` (UploadDocument.jsx line 31). -/
def allowedTypes : List String := ["application/pdf", "text/plain"]

/-- Constant `allowedExtensions` (UploadDocument.jsx line 32). -/
def allowedExtensions : List String := [".pdf", ".txt"]

/-- Constant `maxFileSize = 50 * 1024 * 1024` (UploadDocument.jsx line 33). -/
def maxFileSize : Nat := 50 * 1024 * 1024

/-- The fields of a JS `File` object used by `processFile`. -/
structure JSFile where
  name : String
  type : String
  size : Nat
deriving DecidableEq

/-- JS `String.prototype.lastIndexOf` for a single character: the index
of its last occurrence, `-1` when absent. -/
def jsLastIndexOf (s : String) (c : Char) : Int :=
  match (s.data.reverse.findIdx? (fun x => x == c)) with
  | some i => (s.data.length - 1 - i : Nat)
  | none => -1

/-- JS `String.prototype.substring(start)`: a negative start is clamped
to 0. -/
def jsSubstringFrom (s : String) (i : Int) : String :=
  String.mk (s.data.drop i.toNat)

/-- Extension `file.name.toLowerCase().substring(file.name.lastIndexOf('.'))`
(UploadDocument.jsx line 36). -/
def fileExtensionOf (f : JSFile) : String :=
  jsSubstringFrom (jsToLower f.name) (jsLastIndexOf f.name '.')

/-- Validator `processFile` (UploadDocument.jsx lines 30-50): result is the new
`selectedFile` state plus whether the file was accepted (a success
toast) or rejected (an error toast, state untouched). -/
def processFile (selectedFile : Option JSFile) (f : JSFile) :
    Option JSFile × Bool :=
  if ¬ allowedTypes.contains f.type ∧
      ¬ allowedExtensions.contains (fileExtensionOf f) then
    (selectedFile, false)
  else if maxFileSize < f.size then
    (selectedFile, false)
  else
    (some f, true)

/-! ### ChatAsk (unnamed/part_001 lines 1022-1125) -/

/-- One conversation message: role (`user`/`assistant`) and content. -/
structure ChatMsg where
  role : String
  content : String
deriving DecidableEq

/-- The ChatAsk component state driving `handleSubmit`. -/
structure ChatState where
  messages : List ChatMsg
  currentInput : String
  isLoading : Bool
deriving DecidableEq

/-- Outcome of the `generateReply`/`generateRAGReply` call. -/
inductive ApiOutcome
  | ok (response : String)
  | err
deriving DecidableEq

/-- The canned assistant reply appended when the API call throws
(unnamed/part_001 line 1091). -/
def chatErrorReply : String :=
  "Sorry, I encountered an error. Please try asking your question again."

/-- Handler `ChatAsk.handleSubmit` (unnamed/part_001 lines 1048-1099): an empty
trimmed input or an in-flight request leaves the state alone; otherwise
the trimmed user message is appended, the API is called, and either its
response or the canned error reply is appended as the assistant
message.  `isLoading` ends false and the input is cleared. -/
def handleSubmit (st : ChatState) (outcome : ApiOutcome) : ChatState :=
  if jsTrim st.currentInput == "" || st.isLoading then st
  else
    let userMessage : ChatMsg := ⟨"user", jsTrim st.currentInput⟩
    let updatedMessages := st.messages ++ [userMessage]
    let botMessage : ChatMsg :=
      match outcome with
      | .ok r => ⟨"assistant", r⟩
      | .err => ⟨"assistant", chatErrorReply⟩
    { st with
      messages := updatedMessages ++ [botMessage]
      currentInput := ""
      isLoading := false }

/-- Handler `ChatAsk.clearHistory` (unnamed/part_001 lines 1121-1125). -/
def clearHistory (st : ChatState) : ChatState :=
  { st with messages := [] }

/-- Initial ChatAsk state (`useState([])`, `useState('')`,
`useState(false)` at lines 1024-1026). -/
def initialChatState : ChatState := ⟨[], "", false⟩

/-- A user session against ChatAsk: for each turn the user types an
input (`setCurrentInput`) and submits, with the given API outcome. -/
def chatRun (st : ChatState) (ops : List (String × ApiOutcome)) : ChatState :=
  ops.foldl (fun s p => handleSubmit { s with currentInput := p.1 } p.2) st

/-! ### IngestionPipeline (spec §4.1)

The FastAPI ingestion backend (`backend/app/routes/upload.py`,
`pdf_embeddings.py`, `faiss_storage.py`) is not among the provided
source files — only its README and issue descriptions are — so it is
modelled from the spec here. -/

/-- Modelled from the spec: `ContentHasher.hash(bytes) -> digest`
(spec §4.1), a stable digest of the raw document bytes standing in for
the backend's SHA-256; the repository code is missing.  Bytes are
modelled as a list of naturals; the digest is a 64-bit fold. -/
def contentHash (bytes : List Nat) : Nat :=
  bytes.foldl (fun h b => (h * 131 + b) % 2 ^ 64) 0

/-- Modelled from the spec: a Document record (spec §3): content hash
as primary identity, original display name, byte size, and the
identity returned to callers. -/
structure Document where
  hash : Nat
  displayName : String
  byteSize : Nat
  docId : Nat
deriving DecidableEq

/-- Modelled from the spec: the Chunker's fixed-size split of the
document bytes (spec §4.3), used only to populate VectorEntry rows. -/
def chunkSpans (bytes : List Nat) : List (List Nat) :=
  (List.range (totalPages bytes.length 500)).map
    (fun i => (bytes.drop (i * 500)).take 500)

/-- Modelled from the spec: one VectorEntry (spec §3): owning document
id, chunk sequence index, and the chunk's raw bytes standing in for
its embedding vector. -/
structure VectorEntry where
  docId : Nat
  chunkIndex : Nat
  chunkBytes : List Nat
deriving DecidableEq

/-- Modelled from the spec: the shared persistent state — the
MetadataStore's Document records plus the VectorIndex entries
(spec §2, §4.5, §4.6). -/
structure IngestState where
  docs : List Document
  nextId : Nat
  vectors : List VectorEntry
deriving DecidableEq

/-- Modelled from the spec: result of `ingest` (spec §4.1): a new
Document, or `DuplicateContent` carrying the existing Document's
identity. -/
inductive IngestResult
  | created (d : Document)
  | duplicateContent (existingId : Nat)
deriving DecidableEq

/-- Modelled from the spec: `IngestionPipeline.ingest(bytes,
displayName)` (spec §4.1): compute the digest; if a Document with this
digest exists fail with `DuplicateContent` returning the existing
Document's identity and leaving the state untouched; otherwise create
the Document and index one VectorEntry per chunk. -/
def ingest (st : IngestState) (bytes : List Nat) (displayName : String) :
    IngestState × IngestResult :=
  let digest := contentHash bytes
  match st.docs.find? (fun d => d.hash == digest) with
  | some d => (st, .duplicateContent d.docId)
  | none =>
    let doc : Document := ⟨digest, displayName, bytes.length, st.nextId⟩
    let newEntries := (chunkSpans bytes).enum.map
      (fun p => VectorEntry.mk st.nextId p.1 p.2)
    ({ docs := st.docs ++ [doc]
       nextId := st.nextId + 1
       vectors := st.vectors ++ newEntries }, .created doc)

/-- Modelled from the spec: the empty store before any ingestion. -/
def emptyIngestState : IngestState := ⟨[], 0, []⟩

/-- Modelled from the spec: states reachable from the empty store by
ingest calls. -/
inductive ReachableIngest : IngestState → Prop
  | init : ReachableIngest emptyIngestState
  | step (st : IngestState) (bytes : List Nat) (displayName : String) :
      ReachableIngest st → ReachableIngest (ingest st bytes displayName).1

/-! ## Theorems -/

/-- C9: `handleSelectRow` toggling is an involution with a frame
condition: toggling the same id twice restores the selection set, one
application flips the membership of exactly that id, and membership of
every other id is unchanged. -/
theorem handleSelectRow_toggle (s : Finset Cell) (id : Cell) :
    handleSelectRow (handleSelectRow s id) id = s ∧
    (id ∈ handleSelectRow s id ↔ id ∉ s) ∧
    (∀ b : Cell, b ≠ id → (b ∈ handleSelectRow s id ↔ b ∈ s)) := by
  by_cases h : id ∈ s
  · refine ⟨?_, ?_, ?_⟩
    · simp only [handleSelectRow, if_pos h, Finset.mem_erase, ne_eq,
        not_true_eq_false, false_and, if_neg, Finset.insert_erase h,
        not_false_eq_true]
    · simp [handleSelectRow, if_pos h, h]
    · intro b hb
      simp [handleSelectRow, if_pos h, hb]
  · refine ⟨?_, ?_, ?_⟩
    · simp only [handleSelectRow, if_neg h, Finset.mem_insert, or_false,
        if_pos, Finset.erase_insert h, true_or]
    · simp [handleSelectRow, if_neg h, h]
    · intro b hb
      simp [handleSelectRow, if_neg h, hb]

/-- Witness for C9 at a concrete selection set and row ids. -/
theorem handleSelectRow_toggle_witness :
    Cell.num 1 ≠ Cell.num 2 ∧
    (Cell.num 1 ∈ handleSelectRow ({Cell.num 1} : Finset Cell) (Cell.num 2) ↔
      Cell.num 1 ∈ ({Cell.num 1} : Finset Cell)) :=
  ⟨by decide, (handleSelectRow_toggle {Cell.num 1} (Cell.num 2)).2.2
    (Cell.num 1) (by decide)⟩

/-- C10: `processFile` accepts a file (sets it as the selected file,
success toast) exactly when its MIME type is one of the allowed types
or its lowercased extension is one of the allowed extensions, and its
size is at most `50 * 1024 * 1024` bytes; on rejection the previously
selected file is unchanged. -/
theorem processFile_validation (st : Option JSFile) (f : JSFile) :
    ((processFile st f).2 = true ↔
      ((f.type ∈ allowedTypes ∨ fileExtensionOf f ∈ allowedExtensions) ∧
        f.size ≤ maxFileSize)) ∧
    ((processFile st f).2 = true → (processFile st f).1 = some f) ∧
    ((processFile st f).2 = false → (processFile st f).1 = st) := by
  by_cases hty : f.type ∈ allowedTypes
  · by_cases hsz : f.size ≤ maxFileSize
    · simp [processFile, hty, hsz, Nat.not_lt.mpr hsz]
    · simp [processFile, hty, hsz, Nat.lt_of_not_le hsz]
  · by_cases hex : fileExtensionOf f ∈ allowedExtensions
    · by_cases hsz : f.size ≤ maxFileSize
      · simp [processFile, hty, hex, hsz, Nat.not_lt.mpr hsz]
      · simp [processFile, hty, hex, hsz, Nat.lt_of_not_le hsz]
    · simp [processFile, hty, hex]

/-- Witness for C10: a well-formed small PDF is accepted, and a too
large OGG file is rejected leaving the state unchanged. -/
theorem processFile_validation_witness :
    ((processFile none ⟨"a.PDF", "application/pdf", 7⟩).2 = true →
      (processFile none ⟨"a.PDF", "application/pdf", 7⟩).1 =
        some ⟨"a.PDF", "application/pdf", 7⟩) ∧
    ((processFile (some ⟨"a.PDF", "application/pdf", 7⟩)
        ⟨"b.ogg", "audio/ogg", 99999999⟩).2 = false →
      (processFile (some ⟨"a.PDF", "application/pdf", 7⟩)
        ⟨"b.ogg", "audio/ogg", 99999999⟩).1 =
        some ⟨"a.PDF", "application/pdf", 7⟩) :=
  ⟨(processFile_validation none ⟨"a.PDF", "application/pdf", 7⟩).2.1,
   (processFile_validation (some ⟨"a.PDF", "application/pdf", 7⟩)
      ⟨"b.ogg", "audio/ogg", 99999999⟩).2.2⟩

/-- C2: the SQL string built by `loadTableData` does not depend on the
user-entered search term — two states agreeing on the selected table
produce the identical query — and the table name interpolated into the
query is always one of the enumerated `TABLE_CONFIGS` keys, which is
also all `handleTableChange` can select. -/
theorem loadTableQuery_no_injection (st st' : MSState)
    (h : st.selectedTable = st'.selectedTable) :
    loadTableQuery st = loadTableQuery st' ∧
    loadTableQuery st = "SELECT TOP 1000 * FROM " ++ tableKey st.selectedTable ∧
    tableKey st.selectedTable ∈ tableConfigKeys ∧
    (∀ t : TableName,
      tableKey (handleTableChange st t).selectedTable ∈ tableConfigKeys) := by
  refine ⟨by simp [loadTableQuery, h], rfl, ?_, ?_⟩
  · cases hst : st.selectedTable <;> simp [tableKey, tableConfigKeys]
  · intro t
    cases t <;> simp [handleTableChange, tableKey, tableConfigKeys]

/-- Witness for C2: two concrete states differing only in the search
term yield the identical query string. -/
theorem loadTableQuery_no_injection_witness :
    loadTableQuery ⟨.Machine_Tracking, "abc", none, true, 1, 25⟩ =
      loadTableQuery ⟨.Machine_Tracking, "xyz' OR 1=1 --", none, true, 1, 25⟩ :=
  (loadTableQuery_no_injection
    ⟨.Machine_Tracking, "abc", none, true, 1, 25⟩
    ⟨.Machine_Tracking, "xyz' OR 1=1 --", none, true, 1, 25⟩ rfl).1

/-- C3: the generated SQL asks for at most 1000 rows (`SELECT TOP
1000`), the sample-data fallback produces exactly `sampleSize = 1000`
rows, and hence — provided the structured store honours the `TOP 1000`
bound of the query it is sent — a single `loadTableData` call never
loads more than 1000 rows. -/
theorem loadTableData_row_bound (cellGen : TableName → Column → Nat → Cell)
    (api : Option ApiResult) (t : TableName)
    (hapi : ∀ r : ApiResult, api = some r → r.data.length ≤ 1000) :
    (∀ st : MSState,
      loadTableQuery st = "SELECT TOP 1000 * FROM " ++ tableKey st.selectedTable) ∧
    (generateSampleData cellGen t).length = 1000 ∧
    sampleSize = 1000 ∧
    (loadTableData cellGen api t).1.length ≤ 1000 := by
  have hsample : (generateSampleData cellGen t).length = 1000 := by
    simp [generateSampleData, sampleSize]
  refine ⟨fun _ => rfl, hsample, rfl, ?_⟩
  match api with
  | none => simpa [loadTableData] using Nat.le_of_eq hsample
  | some r =>
    by_cases hok : r.success && 0 < r.data.length
    · simpa [loadTableData, hok] using hapi r rfl
    · simpa [loadTableData, hok] using Nat.le_of_eq hsample

/-- Witness for C3 at a concrete API outcome and table. -/
theorem loadTableData_row_bound_witness :
    (loadTableData (fun _ _ _ => Cell.null) none .UC_Life_Time).1.length ≤ 1000 :=
  (loadTableData_row_bound (fun _ _ _ => Cell.null) none .UC_Life_Time
    (fun r hr => by cases hr)).2.2.2

/-- C7: retrieval failures degrade instead of aborting: a failed or
empty structured-data query still completes `loadTableData`, yielding
the generated sample rows tagged with an explicit SAMPLE DATA notice
(never a real-data notice), and a failed answer request appends an
explicit error reply to the conversation instead of dropping the
exchange. -/
theorem failure_degrades_gracefully
    (cellGen : TableName → Column → Nat → Cell) (t : TableName)
    (r : ApiResult) (st : ChatState)
    (hr : r.success = false ∨ r.data = [])
    (hinput : jsTrim st.currentInput ≠ "") (hload : st.isLoading = false) :
    loadTableData cellGen none t =
      (generateSampleData cellGen t,
        .sampleData sampleSize (TABLE_CONFIGS t).name) ∧
    loadTableData cellGen (some r) t =
      (generateSampleData cellGen t,
        .sampleData sampleSize (TABLE_CONFIGS t).name) ∧
    (∀ n tbl, LoadNotice.sampleData n tbl ≠ LoadNotice.realData n tbl) ∧
    (handleSubmit st .err).messages =
      st.messages ++ [⟨"user", jsTrim st.currentInput⟩,
        ⟨"assistant", chatErrorReply⟩] := by
  have hlen : (generateSampleData cellGen t).length = sampleSize := by
    simp [generateSampleData]
  refine ⟨by simp [loadTableData, hlen], ?_, ?_, ?_⟩
  · rcases hr with hr | hr
    · simp [loadTableData, hr, hlen]
    · simp [loadTableData, hr, hlen]
  · intro n tbl h
    cases h
  · simp [handleSubmit, hinput, hload]

/-- Witness for C7 at a concrete failed API result and chat state. -/
theorem failure_degrades_gracefully_witness :
    ((ApiResult.mk false []).success = false ∨ (ApiResult.mk false []).data = []) ∧
    jsTrim "hello" ≠ "" ∧
    (handleSubmit ⟨[], "hello", false⟩ .err).messages =
      [⟨"user", "hello"⟩, ⟨"assistant", chatErrorReply⟩] := by
  have h := failure_degrades_gracefully (fun _ _ _ => Cell.null)
    .InspectionData ⟨false, []⟩ ⟨[], "hello", false⟩ (Or.inl rfl)
    (by decide) rfl
  exact ⟨Or.inl rfl, by decide, by simpa using h.2.2.2⟩

/-- One submit with a nonempty trimmed input appends exactly the user
message and the reply, leaving `isLoading` false. -/
theorem handleSubmit_append (st : ChatState) (input : String) (o : ApiOutcome)
    (hinput : jsTrim input ≠ "") (hload : st.isLoading = false) :
    (handleSubmit { st with currentInput := input } o).messages =
      st.messages ++ [⟨"user", jsTrim input⟩,
        match o with
        | .ok r => ⟨"assistant", r⟩
        | .err => ⟨"assistant", chatErrorReply⟩] ∧
    (handleSubmit { st with currentInput := input } o).isLoading = false := by
  constructor
  · simp [handleSubmit, hinput, hload]
  · simp [handleSubmit, hinput, hload]

/-- Running `k` submits of the question `"q"` grows the log by exactly
`2 * k` messages. -/
theorem chatRun_replicate (k : Nat) (st : ChatState)
    (hload : st.isLoading = false) :
    (chatRun st (List.replicate k ("q", ApiOutcome.err))).messages.length =
      st.messages.length + 2 * k ∧
    (chatRun st (List.replicate k ("q", ApiOutcome.err))).isLoading = false := by
  induction k generalizing st with
  | zero => simpa [chatRun] using hload
  | succ n ih =>
    rw [List.replicate_succ]
    have hstep := handleSubmit_append st "q" .err (by decide) hload
    have := ih (handleSubmit { st with currentInput := "q" } .err) hstep.2
    constructor
    · calc (chatRun (handleSubmit { st with currentInput := "q" } .err)
            (List.replicate n ("q", ApiOutcome.err))).messages.length =
          (handleSubmit { st with currentInput := "q" } .err).messages.length +
            2 * n := this.1
        _ = st.messages.length + 2 * (n + 1) := by
            rw [hstep.1]
            simp
            omega
    · exact this.2

/-- Counterexample to C4: the conversation message log kept by
`ChatAsk` has no maximum retained length — no cap bounds the number of
retained messages over all submit sequences. -/
theorem chat_log_not_bounded :
    ¬ ∃ cap : Nat, ∀ ops : List (String × ApiOutcome),
      (chatRun initialChatState ops).messages.length ≤ cap := by
  rintro ⟨cap, h⟩
  have hrun := (chatRun_replicate (cap + 1) initialChatState rfl).1
  have hle := h (List.replicate (cap + 1) ("q", ApiOutcome.err))
  rw [hrun] at hle
  simp [initialChatState] at hle
  omega

/-- C4 (amended): the message log is unbounded — there is no retention
cap and no FIFO eviction; each submit with a nonempty trimmed input
appends exactly two messages (the user message then the reply) keeping
all earlier ones, so after `k` submits the log holds `2 * k` messages. -/
theorem chat_log_append_two (st : ChatState) (input : String) (o : ApiOutcome)
    (hinput : jsTrim input ≠ "") (hload : st.isLoading = false) :
    (handleSubmit { st with currentInput := input } o).messages =
      st.messages ++ [⟨"user", jsTrim input⟩,
        match o with
        | .ok r => ⟨"assistant", r⟩
        | .err => ⟨"assistant", chatErrorReply⟩] ∧
    (∀ k : Nat,
      (chatRun initialChatState
        (List.replicate k ("q", ApiOutcome.err))).messages.length = 2 * k) := by
  refine ⟨(handleSubmit_append st input o hinput hload).1, fun k => ?_⟩
  simpa [initialChatState] using (chatRun_replicate k initialChatState rfl).1

/-- Witness for the amended C4 at a concrete state and input. -/
theorem chat_log_append_two_witness :
    jsTrim "hi" ≠ "" ∧
    (handleSubmit ⟨[], "hi", false⟩ (.ok "yes")).messages =
      [⟨"user", "hi"⟩, ⟨"assistant", "yes"⟩] := by
  have h := chat_log_append_two ⟨[], "", false⟩ "hi" (.ok "yes")
    (by decide) rfl
  exact ⟨by decide, by simpa using h.1⟩

/-- Counterexample to C5: `clearHistory` is an operation on the chat
state after which a previously stored message is no longer present —
the log does not only grow by appending. -/
theorem clearHistory_drops_messages :
    ¬ ∃ tail : List ChatMsg,
      (clearHistory ⟨[⟨"user", "hi"⟩], "", false⟩).messages =
        (ChatState.mk [⟨"user", "hi"⟩] "" false).messages ++ tail := by
  rintro ⟨tail, h⟩
  simp [clearHistory] at h

/-- C5 (amended): `handleSubmit` never mutates or reorders stored
messages — every prior message survives at its position and new ones go
only at the end — while `clearHistory` is the one exception, resetting
the log to empty. -/
theorem chat_messages_append_only :
    (∀ (st : ChatState) (o : ApiOutcome), ∃ tail : List ChatMsg,
      (handleSubmit st o).messages = st.messages ++ tail) ∧
    (∀ st : ChatState, (clearHistory st).messages = []) := by
  constructor
  · intro st o
    by_cases h : (jsTrim st.currentInput == "" || st.isLoading) = true
    · exact ⟨[], by simp [handleSubmit, h]⟩
    · refine ⟨[⟨"user", jsTrim st.currentInput⟩,
        match o with
        | .ok r => ⟨"assistant", r⟩
        | .err => ⟨"assistant", chatErrorReply⟩], ?_⟩
      simp only [handleSubmit, h, if_neg, Bool.false_eq_true, not_false_eq_true,
        List.append_assoc, List.cons_append, List.nil_append]
  · intro st
    rfl

/-- Peeling one page off the ceiling-division page count. -/
theorem totalPages_succ (m rpp : Nat) (hr : 0 < rpp) (hm : 0 < m) :
    totalPages m rpp = totalPages (m - rpp) rpp + 1 := by
  unfold totalPages
  rcases Nat.le_total rpp m with h | h
  · have e : m + rpp - 1 = (m - rpp + rpp - 1) + rpp := by omega
    rw [e, Nat.add_div_right _ hr]
  · have e1 : m - rpp = 0 := by omega
    have h2 : (0 + rpp - 1) / rpp = 0 := Nat.div_eq_of_lt (by omega)
    have h3 : (m + rpp - 1) / rpp = 1 := by
      have e2 : m + rpp - 1 = (m - 1) + rpp := by omega
      rw [e2, Nat.add_div_right _ hr, Nat.div_eq_of_lt (by omega)]
    rw [e1, h2, h3]

/-- Concatenating the `rpp`-sized chunks of a list restores the list. -/
theorem flatten_chunks (rpp : Nat) (hr : 0 < rpp) :
    ∀ (n : Nat) (l : List α), l.length ≤ n →
      ((List.range (totalPages l.length rpp)).map
        (fun i => (l.drop (i * rpp)).take rpp)).flatten = l := by
  intro n
  induction n with
  | zero =>
    intro l hl
    have hnil : l = [] := List.eq_nil_of_length_eq_zero (Nat.le_zero.mp hl)
    subst hnil
    have h0 : totalPages 0 rpp = 0 := Nat.div_eq_of_lt (by omega)
    simp [h0]
  | succ n ih =>
    intro l hl
    rcases Nat.eq_zero_or_pos l.length with h0 | hpos
    · have hnil : l = [] := List.eq_nil_of_length_eq_zero h0
      subst hnil
      have h0 : totalPages 0 rpp = 0 := Nat.div_eq_of_lt (by omega)
      simp [h0]
    · rw [totalPages_succ l.length rpp hr hpos, List.range_succ_eq_map]
      have hdroplen : (l.drop rpp).length = l.length - rpp := l.length_drop rpp
      have hrec : ((List.range (totalPages (l.length - rpp) rpp)).map
          (fun i => ((l.drop rpp).drop (i * rpp)).take rpp)).flatten =
          l.drop rpp := by
        have hlen2 : (l.drop rpp).length ≤ n := by
          rw [hdroplen]
          exact Nat.sub_le_iff_le_add.mpr
            (le_trans hl (Nat.add_le_add_left hr n))
        rw [← hdroplen]
        exact ih (l.drop rpp) hlen2
      have hshift : ∀ i : Nat,
          (l.drop (Nat.succ i * rpp)).take rpp =
            ((l.drop rpp).drop (i * rpp)).take rpp := by
        intro i
        rw [List.drop_drop]
        congr 1
        rw [Nat.succ_mul, Nat.add_comm (i * rpp) rpp]
      calc ((0 :: (List.range (totalPages (l.length - rpp) rpp)).map Nat.succ).map
            (fun i => (l.drop (i * rpp)).take rpp)).flatten
          = (l.take rpp) ++
            (((List.range (totalPages (l.length - rpp) rpp)).map Nat.succ).map
              (fun i => (l.drop (i * rpp)).take rpp)).flatten := by
            simp
        _ = (l.take rpp) ++
            ((List.range (totalPages (l.length - rpp) rpp)).map
              (fun i => ((l.drop rpp).drop (i * rpp)).take rpp)).flatten := by
            rw [List.map_map]
            congr 1
            apply congrArg
            apply List.map_congr_left
            intro i _
            exact hshift i
        _ = (l.take rpp) ++ l.drop rpp := by rw [hrec]
        _ = l := List.take_append_drop rpp l

/-- C8: `getPaginatedData` returns exactly the slice of the filtered
data from `(currentPage-1)*rowsPerPage` to `currentPage*rowsPerPage`,
hence at most `rowsPerPage` rows, and the pages `1 .. ceil(n/rpp)`
concatenate back to the filtered data with no row duplicated or lost. -/
theorem getPaginatedData_partition (l : List Row) (p rpp : Nat)
    (hp : 1 ≤ p) (hr : 0 < rpp) :
    getPaginatedData l p rpp = (l.drop ((p - 1) * rpp)).take rpp ∧
    (getPaginatedData l p rpp).length ≤ rpp ∧
    ((List.range (totalPages l.length rpp)).map
      (fun i => getPaginatedData l (i + 1) rpp)).flatten = l := by
  have hslice : ∀ q : Nat, getPaginatedData l (q + 1) rpp =
      (l.drop (q * rpp)).take rpp := by
    intro q
    unfold getPaginatedData jsSlice
    rw [List.drop_take]
    congr 1
    omega
  obtain ⟨q, rfl⟩ : ∃ q, p = q + 1 := ⟨p - 1, by omega⟩
  refine ⟨by simpa using hslice q, ?_, ?_⟩
  · rw [hslice q]
    exact le_trans (List.length_take_le _ _) (le_refl _)
  · have := flatten_chunks rpp hr l.length l (le_refl _)
    calc ((List.range (totalPages l.length rpp)).map
          (fun i => getPaginatedData l (i + 1) rpp)).flatten
        = ((List.range (totalPages l.length rpp)).map
          (fun i => (l.drop (i * rpp)).take rpp)).flatten := by
          congr 1
          apply List.map_congr_left
          intro i _
          exact hslice i
      _ = l := this

/-- Witness for C8 at a concrete five-row table split into pages of
two. -/
theorem getPaginatedData_partition_witness :
    getPaginatedData [[("ID", Cell.num 1)], [("ID", Cell.num 2)],
        [("ID", Cell.num 3)], [("ID", Cell.num 4)], [("ID", Cell.num 5)]] 2 2 =
      [[("ID", Cell.num 3)], [("ID", Cell.num 4)]] := by
  have h := getPaginatedData_partition
    [[("ID", Cell.num 1)], [("ID", Cell.num 2)], [("ID", Cell.num 3)],
      [("ID", Cell.num 4)], [("ID", Cell.num 5)]] 2 2 (by omega) (by omega)
  rw [h.1]
  rfl

/-- Unfolding `ingest` when a document with the digest is already stored. -/
theorem ingest_of_find_some (st : IngestState) (bytes : List Nat)
    (name : String) (d : Document)
    (h : st.docs.find? (fun x => x.hash == contentHash bytes) = some d) :
    ingest st bytes name = (st, .duplicateContent d.docId) := by
  simp [ingest, h]

/-- Unfolding `ingest` when no document with the digest is stored yet. -/
theorem ingest_of_find_none (st : IngestState) (bytes : List Nat)
    (name : String)
    (h : st.docs.find? (fun x => x.hash == contentHash bytes) = none) :
    ingest st bytes name =
      ({ docs := st.docs ++
          [⟨contentHash bytes, name, bytes.length, st.nextId⟩]
         nextId := st.nextId + 1
         vectors := st.vectors ++ (chunkSpans bytes).enum.map
           (fun p => VectorEntry.mk st.nextId p.1 p.2) },
       .created ⟨contentHash bytes, name, bytes.length, st.nextId⟩) := by
  simp [ingest, h]

/-- C1: re-ingesting byte-identical content fails with
`DuplicateContent` carrying the already-stored Document's identity and
leaves the MetadataStore/VectorIndex state untouched; and every state
reachable by ingest calls holds at most one Document per content hash. -/
theorem ingest_dedup (st : IngestState) (bytes : List Nat)
    (name₁ name₂ : String) (d : Document)
    (h : (ingest st bytes name₁).2 = .created d) :
    ingest (ingest st bytes name₁).1 bytes name₂ =
      ((ingest st bytes name₁).1, .duplicateContent d.docId) ∧
    (∀ s : IngestState, ReachableIngest s →
      ∀ d₁ ∈ s.docs, ∀ d₂ ∈ s.docs, d₁.hash = d₂.hash → d₁ = d₂) := by
  constructor
  · rcases hfind : st.docs.find?
        (fun x => x.hash == contentHash bytes) with _ | found
    · have hst1 := ingest_of_find_none st bytes name₁ hfind
      have hd : d = ⟨contentHash bytes, name₁, bytes.length, st.nextId⟩ := by
        rw [hst1] at h
        exact (IngestResult.created.injEq _ _).mp h.symm
      have hfind2 : ((ingest st bytes name₁).1).docs.find?
          (fun x => x.hash == contentHash bytes) =
          some ⟨contentHash bytes, name₁, bytes.length, st.nextId⟩ := by
        rw [hst1]
        simp [List.find?_append, hfind]
      rw [ingest_of_find_some _ bytes name₂ _ hfind2, hd]
    · exfalso
      rw [ingest_of_find_some st bytes name₁ found hfind] at h
      cases h
  · intro s hs
    induction hs with
    | init =>
      intro d₁ h₁
      simp [emptyIngestState] at h₁
    | step st' bytes' name' _ ih =>
      rcases hfind : st'.docs.find?
          (fun x => x.hash == contentHash bytes') with _ | found
      · have hfresh : ∀ x ∈ st'.docs, x.hash ≠ contentHash bytes' := by
          intro x hx
          have := List.find?_eq_none.mp hfind x hx
          simpa using this
        intro d₁ h₁ d₂ h₂ hhash
        rw [ingest_of_find_none st' bytes' name' hfind] at h₁ h₂
        simp only [List.mem_append, List.mem_singleton] at h₁ h₂
        rcases h₁ with h₁ | h₁ <;> rcases h₂ with h₂ | h₂
        · exact ih d₁ h₁ d₂ h₂ hhash
        · subst h₂
          exact absurd hhash (hfresh d₁ h₁)
        · subst h₁
          exact absurd hhash.symm (hfresh d₂ h₂)
        · subst h₁
          subst h₂
          rfl
      · intro d₁ h₁ d₂ h₂ hhash
        rw [ingest_of_find_some st' bytes' name' found hfind] at h₁ h₂
        exact ih d₁ h₁ d₂ h₂ hhash

/-- Witness for C1: ingesting `[1, 2, 3]` twice into the empty store —
the second call reports the duplicate and changes nothing. -/
theorem ingest_dedup_witness :
    (ingest emptyIngestState [1, 2, 3] "a").2 =
      .created ⟨17426, "a", 3, 0⟩ ∧
    ingest (ingest emptyIngestState [1, 2, 3] "a").1 [1, 2, 3] "b" =
      ((ingest emptyIngestState [1, 2, 3] "a").1, .duplicateContent 0) := by
  have h : (ingest emptyIngestState [1, 2, 3] "a").2 =
      .created ⟨17426, "a", 3, 0⟩ := by rfl
  exact ⟨h, (ingest_dedup emptyIngestState [1, 2, 3] "a" "b"
    ⟨17426, "a", 3, 0⟩ h).1⟩

/-- The comparator's strict order is irreflexive. -/
theorem svLT_irrefl (a : SortVal) : svLT a a = false := by
  cases a <;> simp [svLT]

/-- The comparator's strict order is asymmetric. -/
theorem svLT_asymm {a b : SortVal} (h : svLT a b = true) :
    svLT b a = false := by
  cases a <;> cases b <;> simp [svLT] at h ⊢
  · omega
  · exact le_of_lt h

/-- Cotransitivity of the comparator's strict order. -/
theorem svLT_cotrans {x y z : SortVal} (h : svLT z x = true) :
    svLT z y = true ∨ svLT y x = true := by
  cases z <;> cases x <;> cases y <;> simp [svLT] at h ⊢
  · omega
  · rename_i a b c
    rcases lt_or_le a.data c.data with hzy | hyz
    · exact Or.inl hzy
    · exact Or.inr (lt_of_le_of_lt hyz h)

/-- Nonpositive `compareRows a b` says exactly that the pair is not strictly
out of order for the requested direction. -/
theorem compareRows_nonpos (P : JSPrims) (cols : List Column) (k : String)
    (asc : Bool) (a b : Row) :
    compareRows P cols k asc a b ≤ 0 ↔
      svLT (if asc then sortKeyVal P cols k b else sortKeyVal P cols k a)
        (if asc then sortKeyVal P cols k a else sortKeyVal P cols k b) =
        false := by
  by_cases hab : svLT (sortKeyVal P cols k a) (sortKeyVal P cols k b) = true
  · have hba := svLT_asymm hab
    cases asc <;> simp [compareRows, hab, hba]
  · rw [Bool.not_eq_true] at hab
    by_cases hba : svLT (sortKeyVal P cols k b) (sortKeyVal P cols k a) = true
    · cases asc <;> simp [compareRows, hab, hba]
    · rw [Bool.not_eq_true] at hba
      cases asc <;> simp [compareRows, hab, hba]

/-- The sort relation used by `filterAndSortData` is total. -/
theorem compareRows_le_total (P : JSPrims) (cols : List Column) (k : String)
    (asc : Bool) (a b : Row) :
    compareRows P cols k asc a b ≤ 0 ∨ compareRows P cols k asc b a ≤ 0 := by
  rw [compareRows_nonpos, compareRows_nonpos]
  by_cases h : svLT (sortKeyVal P cols k b) (sortKeyVal P cols k a) = true
  · have := svLT_asymm h
    cases asc <;> simp [h, this]
  · rw [Bool.not_eq_true] at h
    cases asc <;> simp [h]

/-- The sort relation used by `filterAndSortData` is transitive. -/
theorem compareRows_le_trans (P : JSPrims) (cols : List Column) (k : String)
    (asc : Bool) {a b c : Row}
    (h₁ : compareRows P cols k asc a b ≤ 0)
    (h₂ : compareRows P cols k asc b c ≤ 0) :
    compareRows P cols k asc a c ≤ 0 := by
  rw [compareRows_nonpos] at h₁ h₂ ⊢
  cases asc <;> simp only [if_true, if_false, Bool.false_eq_true] at h₁ h₂ ⊢
  · by_contra hlt
    rw [Bool.not_eq_false] at hlt
    rcases svLT_cotrans (y := sortKeyVal P cols k b) hlt with hz | hz
    · rw [h₁] at hz
      cases hz
    · rw [h₂] at hz
      cases hz
  · by_contra hlt
    rw [Bool.not_eq_false] at hlt
    rcases svLT_cotrans (y := sortKeyVal P cols k b) hlt with hz | hz
    · rw [h₂] at hz
      cases hz
    · rw [h₁] at hz
      cases hz

/-- Rows with equal conversion keys compare as ties. -/
theorem compareRows_of_keys_eq (P : JSPrims) (cols : List Column) (k : String)
    (asc : Bool) {a b : Row}
    (h : sortKeyVal P cols k a = sortKeyVal P cols k b) :
    compareRows P cols k asc a b = 0 := by
  simp [compareRows, h, svLT_irrefl]

/-- C6: `filterAndSortData` with a sort key produces a list totally
ordered by the code's comparator for the requested direction (numbers
via `parseFloat`, dates via timestamp, strings lowercased, nulls as
`''`), and rows whose conversion keys are equal keep their relative
order from the input table data (the sort is stable and
deterministic). -/
theorem filterAndSortData_sorted_stable (P : JSPrims) (t : TableName)
    (term k : String) (asc : Bool) (tableData : List Row) :
    List.Sorted
      (fun a b => compareRows P (TABLE_CONFIGS t).columns k asc a b ≤ 0)
      (filterAndSortData P t term (some k) asc tableData) ∧
    (∀ a b : Row,
      List.Sublist [a, b] tableData →
      sortKeyVal P (TABLE_CONFIGS t).columns k a =
        sortKeyVal P (TABLE_CONFIGS t).columns k b →
      a ∈ filterAndSortData P t term (some k) asc tableData →
      b ∈ filterAndSortData P t term (some k) asc tableData →
      List.Sublist [a, b]
        (filterAndSortData P t term (some k) asc tableData)) := by
  have hout : filterAndSortData P t term (some k) asc tableData =
      (if term == "" then tableData
        else tableData.filter
          (rowMatchesSearch (TABLE_CONFIGS t).columns term)).insertionSort
        (fun a b => compareRows P (TABLE_CONFIGS t).columns k asc a b ≤ 0) :=
    rfl
  haveI htr : IsTrans Row
      (fun a b => compareRows P (TABLE_CONFIGS t).columns k asc a b ≤ 0) :=
    ⟨fun _ _ _ h₁ h₂ =>
      compareRows_le_trans P (TABLE_CONFIGS t).columns k asc h₁ h₂⟩
  haveI hto : IsTotal Row
      (fun a b => compareRows P (TABLE_CONFIGS t).columns k asc a b ≤ 0) :=
    ⟨fun a b => compareRows_le_total P (TABLE_CONFIGS t).columns k asc a b⟩
  constructor
  · rw [hout]
    exact List.sorted_insertionSort _ _
  · intro a b hsub hkey ha hb
    rw [hout] at ha hb ⊢
    have hr : compareRows P (TABLE_CONFIGS t).columns k asc a b ≤ 0 :=
      le_of_eq (compareRows_of_keys_eq P (TABLE_CONFIGS t).columns k asc hkey)
    by_cases hterm : (term == "") = true
    · refine List.pair_sublist_insertionSort hr ?_
      simpa [hterm] using hsub
    · have hterm' : (term == "") = false := by
        rw [Bool.not_eq_true] at hterm
        exact hterm
      have hma : a ∈ tableData.filter
          (rowMatchesSearch (TABLE_CONFIGS t).columns term) := by
        have := (List.mem_insertionSort
          (fun a b =>
            compareRows P (TABLE_CONFIGS t).columns k asc a b ≤ 0)).mp ha
        simpa [hterm'] using this
      have hmb : b ∈ tableData.filter
          (rowMatchesSearch (TABLE_CONFIGS t).columns term) := by
        have := (List.mem_insertionSort
          (fun a b =>
            compareRows P (TABLE_CONFIGS t).columns k asc a b ≤ 0)).mp hb
        simpa [hterm'] using this
      have hfa : rowMatchesSearch (TABLE_CONFIGS t).columns term a = true :=
        List.of_mem_filter hma
      have hfb : rowMatchesSearch (TABLE_CONFIGS t).columns term b = true :=
        List.of_mem_filter hmb
      refine List.pair_sublist_insertionSort hr ?_
      have hfsub := hsub.filter (rowMatchesSearch (TABLE_CONFIGS t).columns term)
      rw [show [a, b].filter (rowMatchesSearch (TABLE_CONFIGS t).columns term) =
        [a, b] by simp [List.filter, hfa, hfb]] at hfsub
      simpa [hterm'] using hfsub

/-- Witness for C6: two rows whose `Model` keys compare equal only
case-insensitively keep their input order through
`filterAndSortData`. -/
theorem filterAndSortData_sorted_stable_witness :
    List.Sublist [[("Model", Cell.str "A")], [("Model", Cell.str "a")]]
      (filterAndSortData ⟨fun _ => 0, fun _ => 0⟩ .UC_Life_Time "" (some "Model")
        true [[("Model", Cell.str "A")], [("Model", Cell.str "a")]]) :=
  (filterAndSortData_sorted_stable ⟨fun _ => 0, fun _ => 0⟩ .UC_Life_Time ""
      "Model" true [[("Model", Cell.str "A")], [("Model", Cell.str "a")]]).2
    [("Model", Cell.str "A")] [("Model", Cell.str "a")]
    (List.Sublist.refl _) (by decide) (by decide) (by decide)

end KGI
